import Mathlib

/-!
Verification of the crawl engine in src/scraper.py.

The scraper is embedded shallowly: network I/O is abstracted into an
oracle (`Site`) that maps a URL and an attempt number to the outcome of
one `session.get` call, and HTML parsing (BeautifulSoup selector
queries) is abstracted into oracle functions from a response body to
the selected structure, exactly at the granularity the Python code
observes it.  Thread-pool completion order (`as_completed`) is modelled
as submission order; the claims settled here (row counts, exactly-once
appending, failure isolation, chunk partitioning, column layout) are
insensitive to the completion order.
-/

namespace Scraper

/-- Python exceptions that the scraper's code paths can raise or catch:
`requests.HTTPError` (raised by `resp.raise_for_status()`),
`requests.Timeout`, `requests.ConnectionError`, malformed-URL errors
such as `requests.exceptions.MissingSchema`, and the builtin
`AttributeError` / `KeyError` / `ValueError` that the parsing and CSV
code can raise. -/
inductive PyExc where
  | httpError (status : Nat)
  | timeoutError
  | connectionError
  | invalidURL
  | attributeError
  | keyError
  | valueError
deriving DecidableEq, Repr

/-- Outcome of a single `session.get(url, timeout=10)` call: either an
HTTP response carrying a status code and a body (`resp.text`), or a
transport-level exception raised by `requests` itself. -/
inductive AttemptResult where
  | response (status : Nat) (body : String)
  | exn (e : PyExc)
deriving Repr

/-- Observable behaviour of one `get_with_retries` call:
`result` is `some (.ok body)` when a response was returned, `some
(.error e)` when an exception propagated to the caller, and `none` when
the Python loop fell off the end without returning (possible only with
`retries = 0`); `attempts` counts the `session.get` calls actually
issued; `waits` lists the `time.sleep` durations, in order. -/
structure FetchOutcome where
  result : Option (Except PyExc String)
  attempts : Nat
  waits : List Nat

/-- Loop body of `get_with_retries` (src/scraper.py lines 35-48),
by recursion on the number of loop iterations that remain
(`fuel = retries - attempt + 1`).  `resp.raise_for_status()` raises
`requests.HTTPError` exactly for status codes in [400, 600); the
`except requests.HTTPError` clause catches only that exception, so a
transport-level exception propagates immediately.  On a caught
`HTTPError` with attempts left the code sleeps `backoff` seconds and
doubles `backoff`; on the last attempt it re-raises. -/
def getGo (fetch : Nat → AttemptResult) (retries : Nat) :
    Nat → Nat → Nat → FetchOutcome
  | 0, _, _ => ⟨none, 0, []⟩
  | fuel + 1, attempt, backoff =>
    match fetch attempt with
    | .exn e => ⟨some (.error e), 1, []⟩
    | .response status body =>
      if 400 ≤ status ∧ status < 600 then
        if attempt < retries then
          let rest := getGo fetch retries fuel (attempt + 1) (backoff * 2)
          ⟨rest.result, rest.attempts + 1, backoff :: rest.waits⟩
        else
          ⟨some (.error (.httpError status)), 1, []⟩
      else
        ⟨some (.ok body), 1, []⟩

/-- `get_with_retries(session, url, retries, backoff)`: the Python
defaults are `retries=3, backoff=2`, which the call sites in
`parse_detail` and `scrape_page` use; here they are passed explicitly.
The `fetch` oracle gives the outcome of the `attempt`-th
`session.get`. -/
def get_with_retries (fetch : Nat → AttemptResult) (retries backoff : Nat) :
    FetchOutcome :=
  getGo fetch retries retries 1 backoff

/-- The exponential back-off schedule: `n` waits starting at `b`
seconds and doubling each time, i.e. `b * 2 ^ k` for `k < n`. -/
def geometricWaits (b n : Nat) : List Nat :=
  (List.range n).map (fun k => b * 2 ^ k)

/-! ## Configuration constants (src/scraper.py lines 13-24) -/

def BASE_URL : String := "https://www.merrjep.al"

def LISTING_PATH : String := "/njoftime/automjete/makina/ne-shitje"

def PAGES : Nat := 60

def CHUNK_SIZE : Nat := 5

def MAX_DETAIL_WORKERS : Nat := 10

def FIELDNAMES : List String :=
  ["scrape_date", "listing_url", "year", "transmission", "mileage",
   "fuel", "municipality", "color", "make", "model",
   "price_value", "price_currency"]

/-! ## Python dict model

`parse_detail` builds its record in a Python `dict`; we model a dict
with string keys and values as an association list in insertion order,
with assignment replacing in place when the key exists and appending
otherwise — exactly Python's dict semantics. -/

abbrev Dict := List (String × String)

/-- `d[k] = v` on a Python dict. -/
def dictSet (d : Dict) (k v : String) : Dict :=
  if d.any (fun p => p.1 = k) then
    d.map (fun p => if p.1 = k then (k, v) else p)
  else
    d ++ [(k, v)]

/-- `d.get(k)`. -/
def dictGet (d : Dict) (k : String) : Option String :=
  (d.find? (fun p => p.1 = k)).map Prod.snd

/-- `d.keys()` in insertion order. -/
def dictKeys (d : Dict) : List String := d.map Prod.fst

/-! ## Detail-page parsing (src/scraper.py lines 50-74) -/

/-- One element of `soup.select(".tag-item")` as `parse_detail`
observes it: `span` is the text of `tag.find("span")` (`none` when that
child is absent, in which case `.get_text` raises `AttributeError`),
and likewise `bdi` for `tag.find("bdi")`. -/
structure TagItem where
  span : Option String
  bdi : Option String
deriving Repr

/-- A parsed detail page as `parse_detail` observes it.
`priceElem` is the result of
`soup.select_one(".new-price .format-money-int")`: `none` when the
selector matches nothing, `some a` when it matches an element whose
`"value"` attribute is `a` (so `some none` is an element without that
attribute, where `pe["value"]` raises `KeyError`).  `currencyElem` is
the text of `soup.select_one(".new-price span:not(.format-money-int)")`
when that matches. -/
structure Page where
  tagItems : List TagItem
  priceElem : Option (Option String)
  currencyElem : Option String
deriving Repr

/-- Python `str.startswith` on the underlying character sequences. -/
def charsStartWith : List Char → List Char → Bool
  | _, [] => true
  | [], _ :: _ => false
  | c :: cs, p :: ps => c = p && charsStartWith cs ps

/-- Python `s.startswith(pre)`. -/
def pyStartsWith (s pre : String) : Bool :=
  charsStartWith s.data pre.data

/-- The `if`/`elif` label-dispatch chain of `parse_detail`: which field
a `.tag-item` label is mapped to, if any. -/
def tagField (label : String) : Option String :=
  if pyStartsWith label "Viti" then some "year"
  else if pyStartsWith label "Transmetuesi" then some "transmission"
  else if pyStartsWith label "Kilometrazha" then some "mileage"
  else if pyStartsWith label "Karburanti" then some "fuel"
  else if pyStartsWith label "Komuna" then some "municipality"
  else if pyStartsWith label "Ngjyra" then some "color"
  else if pyStartsWith label "Prodhuesi" then some "make"
  else if pyStartsWith label "Modeli" then some "model"
  else none

/-- One iteration of the `.tag-item` loop.  Python reads
`tag.find("span").get_text(...)` and then `tag.find("bdi").get_text(...)`
before the label dispatch, so a missing `span` or `bdi` child raises
`AttributeError` regardless of the label. -/
def processTag (data : Dict) (t : TagItem) : Except PyExc Dict :=
  match t.span with
  | none => .error .attributeError
  | some label =>
    match t.bdi with
    | none => .error .attributeError
    | some val =>
      match tagField label with
      | some f => .ok (dictSet data f val)
      | none => .ok data

/-- The parsing part of `parse_detail` applied to an already-fetched
page: the `.tag-item` loop followed by the price and currency
extraction.  `data["price_value"] = pe["value"] if pe else ""` raises
`KeyError` when the price element exists but has no `value`
attribute. -/
def parseDetailBody (p : Page) : Except PyExc Dict := do
  let data ← p.tagItems.foldlM processTag ([] : Dict)
  let pv ←
    match p.priceElem with
    | none => pure ""
    | some (some v) => pure v
    | some none => Except.error PyExc.keyError
  let data := dictSet data "price_value" pv
  let cur :=
    match p.currencyElem with
    | some t => t
    | none => ""
  pure (dictSet data "price_currency" cur)

/-! ## The site oracle

Network responses and BeautifulSoup selector results, abstracted at
exactly the points the Python code observes them. -/

/-- The environment a crawl runs against.
`indexFetch url attempt` / `detailFetch url attempt` give the outcome
of the `attempt`-th `session.get` on that URL inside one
`get_with_retries` call; `indexLinks body` is the `href` list produced
by `[a["href"] for a in soup.select("a.Link_vis")]` on an index-page
body; `detailPage body` is the parsed structure of a detail-page body;
`clock n` is the string `datetime.utcnow().isoformat()` returns for the
`n`-th row written. -/
structure Site where
  indexFetch : String → Nat → AttemptResult
  indexLinks : String → List String
  detailFetch : String → Nat → AttemptResult
  detailPage : String → Page
  clock : Nat → String

/-- `f"{BASE_URL}{LISTING_PATH}?Page={page_num}"`. -/
def pageUrl (pageNum : Nat) : String :=
  BASE_URL ++ LISTING_PATH ++ "?Page=" ++ toString pageNum

/-- `url = href if href.startswith("http") else BASE_URL + href`. -/
def resolveUrl (href : String) : String :=
  if pyStartsWith href "http" then href else BASE_URL ++ href

/-- A `get_with_retries` call as its callers see it: the returned
response body, or the propagated exception.  Both call sites use the
Python defaults `retries=3, backoff=2`; with `retries = 3` the loop
cannot fall off the end, and the unreachable `none` case is mapped to
the `AttributeError` that `None.text` would raise in the caller. -/
def fetchResult (fetch : Nat → AttemptResult) : Except PyExc String :=
  match (get_with_retries fetch 3 2).result with
  | some r => r
  | none => .error .attributeError

/-- `parse_detail(session, href)` (src/scraper.py lines 50-74): resolve
the URL, fetch with retries, parse, and return `(url, data)`. -/
def parse_detail (site : Site) (href : String) :
    Except PyExc (String × Dict) := do
  let url := resolveUrl href
  let body ← fetchResult (site.detailFetch url)
  let data ← parseDetailBody (site.detailPage body)
  pure (url, data)

/-- `scrape_page(session, page_num, total_bar)` (src/scraper.py lines
76-97): fetch the index page with retries, extract the listing links,
then run `parse_detail` on every link; a link whose future raises is
caught by the per-item `try`/`except` and skipped, the others are
appended to `results`.  Completion order is modelled as submission
order. -/
def scrape_page (site : Site) (pageNum : Nat) :
    Except PyExc (List (String × Dict)) := do
  let body ← fetchResult (site.indexFetch (pageUrl pageNum))
  let hrefs := site.indexLinks body
  pure (hrefs.foldl
    (fun acc href =>
      match parse_detail site href with
      | .ok r => acc ++ [r]
      | .error _ => acc)
    [])

/-! ## The main loop (src/scraper.py lines 99-129) -/

/-- Iteration worker for Python `range(start, stop, step)`: each round
advances `start` by `step ≥ 1`, so `stop - start` shrinks by at least
one and serves as structural fuel. -/
def pyRangeGo (stop step : Nat) : Nat → Nat → List Nat
  | 0, _ => []
  | fuel + 1, start =>
    if 0 < step ∧ start < stop then
      start :: pyRangeGo stop step fuel (start + step)
    else
      []

/-- Python `range(start, stop, step)` for a positive step (the step
`CHUNK_SIZE` is positive; `range` with step 0 would raise at once). -/
def pyRangeStep (start stop step : Nat) : List Nat :=
  pyRangeGo stop step (stop - start) start

/-- `chunk = list(range(i+1, min(PAGES, i+CHUNK_SIZE)+1))`. -/
def chunkAt (pages cs i : Nat) : List Nat :=
  List.range' (i + 1) (min pages (i + cs) - i)

/-- The successive chunks the outer loop
`for i in range(0, PAGES, CHUNK_SIZE)` processes. -/
def chunksList (pages cs : Nat) : List (List Nat) :=
  (pyRangeStep 0 pages cs).map (chunkAt pages cs)

/-- The row dict `{"scrape_date": ..., "listing_url": url, **details}`
passed to `writer.writerow`. -/
def rowDict (ts url : String) (details : Dict) : Dict :=
  details.foldl (fun d kv => dictSet d kv.1 kv.2)
    [("scrape_date", ts), ("listing_url", url)]

/-- `csv.DictWriter` with the default `extrasaction="raise"` raises
`ValueError` on a row dict holding a key outside `fieldnames`; this
predicate says the row for one `(url, details)` result is accepted.
(The keys do not depend on the timestamp value.) -/
def rowOk (r : String × Dict) : Bool :=
  (dictKeys (rowDict "" r.1 r.2)).all (fun k => FIELDNAMES.contains k)

/-- `DictWriter` serialization of one accepted row: the values in
`FIELDNAMES` order, a missing key contributing the empty cell
(`restval=None` is written as an empty string). -/
def serializeRow (row : Dict) : List String :=
  FIELDNAMES.map (fun k => (dictGet row k).getD "")

/-- What one page's future contributes to the output file: nothing when
`scrape_page` raised (the `except` clause in `main` logs and moves on),
otherwise its results written row by row — a `writerow` rejection
aborts the remaining rows of that page's loop and is itself caught by
the same `except` clause. -/
def perPageWritten (site : Site) (p : Nat) : List (String × Dict) :=
  match scrape_page site p with
  | .error _ => []
  | .ok rs => rs.takeWhile rowOk

/-- The `(url, details)` results `main` writes, in order: the outer
loop over `range(0, pages, cs)`, each chunk's pages in order. -/
def mainItems (site : Site) (pages cs : Nat) : List (String × Dict) :=
  (pyRangeStep 0 pages cs).foldl
    (fun acc i =>
      (chunkAt pages cs i).foldl
        (fun acc2 p => acc2 ++ perPageWritten site p) acc)
    []

/-- The output CSV as a list of rows of cells: `writer.writeheader()`
first, then one serialized row per written result, each stamped with
`datetime.utcnow().isoformat()` at write time. -/
def mainFile (site : Site) (pages cs : Nat) : List (List String) :=
  FIELDNAMES ::
    (mainItems site pages cs).enum.map
      (fun r => serializeRow (rowDict (site.clock r.1) r.2.1 r.2.2))

/-- Process exit: every exception raised while processing a page's
future is caught by the bare `except Exception` clauses inside `main`,
so `main` always returns normally and the interpreter exits 0.  The
script's observable behaviour is the exit status and the file. -/
def runScript (site : Site) (pages cs : Nat) : Nat × List (List String) :=
  (0, mainFile site pages cs)

/-! ## Network-activity accounting -/

/-- `session.get` calls issued while processing one detail link. -/
def detailCalls (site : Site) (href : String) : Nat :=
  (get_with_retries (site.detailFetch (resolveUrl href)) 3 2).attempts

/-- `session.get` calls issued while processing one page: the index
fetch attempts, plus the detail fetch attempts when the index fetch
succeeded. -/
def pageCalls (site : Site) (p : Nat) : Nat :=
  let o := get_with_retries (site.indexFetch (pageUrl p)) 3 2
  o.attempts +
    match o.result with
    | some (.ok body) => ((site.indexLinks body).map (detailCalls site)).sum
    | _ => 0

/-- Total `session.get` calls a run issues. -/
def mainCalls (site : Site) (pages cs : Nat) : Nat :=
  ((pyRangeStep 0 pages cs).map
    (fun i => ((chunkAt pages cs i).map (pageCalls site)).sum)).sum

/-! ## Spec-side description of the per-item success list -/

/-- Stated from the spec's invariant "for all listing URLs successfully
fetched and parsed, exactly one ListingRecord is appended to the sink":
the successful work items of a crawl over pages `1..pages`, described
directly — for each page whose index fetch succeeds, the listing links
whose detail fetch and parse succeed, one item each, in discovery
order; a failed page or item contributes nothing.  The scheduler is
proved to append exactly these items. -/
def specSuccessItems (site : Site) (pages : Nat) : List (String × Dict) :=
  (List.range' 1 pages).flatMap (fun p =>
    match fetchResult (site.indexFetch (pageUrl p)) with
    | .error _ => []
    | .ok body =>
      (site.indexLinks body).filterMap
        (fun href => (parse_detail site href).toOption))

/-- The field names `parse_detail` can ever put into its `data` dict. -/
def detailFields : List String :=
  ["year", "transmission", "mileage", "fuel", "municipality", "color",
   "make", "model", "price_value", "price_currency"]

/-! ## Helper lemmas: the retry loop -/

lemma geometricWaits_zero (b : Nat) : geometricWaits b 0 = [] := rfl

lemma geometricWaits_succ (b n : Nat) :
    geometricWaits b (n + 1) = b :: geometricWaits (b * 2) n := by
  unfold geometricWaits
  rw [List.range_succ_eq_map]
  simp only [List.map_cons, List.map_map, pow_zero, mul_one, List.cons.injEq,
    true_and]
  apply List.map_congr_left
  intro k _
  simp only [Function.comp_apply, Nat.succ_eq_add_one, pow_succ]
  ring

/-- The sleeps any `get_with_retries` call performs follow the doubling
schedule: some count of waits `backoff * 2 ^ k`. -/
lemma getGo_waits (fetch : Nat → AttemptResult) (retries : Nat) :
    ∀ fuel attempt backoff, ∃ n,
      (getGo fetch retries fuel attempt backoff).waits =
        geometricWaits backoff n := by
  intro fuel
  induction fuel with
  | zero => intro attempt backoff; exact ⟨0, rfl⟩
  | succ f ih =>
    intro attempt backoff
    unfold getGo
    cases fetch attempt with
    | exn e => exact ⟨0, rfl⟩
    | response status body =>
      by_cases hs : 400 ≤ status ∧ status < 600
      · by_cases ha : attempt < retries
        · obtain ⟨n, hn⟩ := ih (attempt + 1) (backoff * 2)
          refine ⟨n + 1, ?_⟩
          simp only [hs, ha, if_pos, and_self, if_true]
          rw [geometricWaits_succ]
          simpa using hn
        · refine ⟨0, ?_⟩
          simp [hs, ha, geometricWaits]
      · refine ⟨0, ?_⟩
        simp [hs, geometricWaits]

/-- A run of the loop on constantly failing HTTP statuses: starting at
`attempt` with `fuel = retries - attempt + 1` iterations left, it uses
all remaining attempts, sleeps the doubling schedule between them, and
re-raises the `HTTPError` at the end. -/
lemma getGo_const_httpError (s : Nat) (body : String) (retries : Nat)
    (h4 : 400 ≤ s) (h6 : s < 600) :
    ∀ fuel attempt backoff, 1 ≤ fuel → attempt + fuel = retries + 1 →
      getGo (fun _ => .response s body) retries fuel attempt backoff =
        ⟨some (.error (.httpError s)), fuel, geometricWaits backoff (fuel - 1)⟩ := by
  intro fuel
  induction fuel with
  | zero => intro attempt backoff h1 _; omega
  | succ f ih =>
    intro attempt backoff _ hsum
    unfold getGo
    simp only
    rcases Nat.eq_zero_or_pos f with hf | hf
    · subst hf
      have ha : ¬ attempt < retries := by omega
      simp [h4, h6, ha, geometricWaits_zero]
    · have ha : attempt < retries := by omega
      rw [ih (attempt + 1) (backoff * 2) (by omega) (by omega)]
      simp [h4, h6, ha]
      conv_rhs => rw [show f = (f - 1) + 1 by omega]
      rw [geometricWaits_succ]

/-- `get_with_retries` on constantly failing HTTP statuses uses exactly
`retries` attempts, sleeps `backoff * 2 ^ (k - 1)` between attempts `k`
and `k + 1`, and raises the final `HTTPError`. -/
lemma get_with_retries_const_httpError (s : Nat) (body : String)
    (retries backoff : Nat) (h4 : 400 ≤ s) (h6 : s < 600)
    (hr : 1 ≤ retries) :
    get_with_retries (fun _ => .response s body) retries backoff =
      ⟨some (.error (.httpError s)), retries,
        geometricWaits backoff (retries - 1)⟩ :=
  getGo_const_httpError s body retries h4 h6 retries 1 backoff hr (by omega)

/-- A transport-level exception on the first attempt (timeout,
connection reset, malformed URL — anything `requests` raises that is
not `HTTPError`) is not caught: it propagates immediately, after a
single attempt and no sleep. -/
lemma get_with_retries_exn_first (fetch : Nat → AttemptResult)
    (e : PyExc) (retries backoff : Nat) (hr : 1 ≤ retries)
    (h1 : fetch 1 = .exn e) :
    get_with_retries fetch retries backoff = ⟨some (.error e), 1, []⟩ := by
  unfold get_with_retries
  obtain ⟨f, hf⟩ : ∃ f, retries = f + 1 := ⟨retries - 1, by omega⟩
  rw [hf]
  unfold getGo
  rw [h1]

/-! ## Helper lemmas: the dict model -/

lemma mem_dictKeys (d : Dict) (x : String) :
    x ∈ dictKeys d ↔ ∃ p ∈ d, p.1 = x := by
  unfold dictKeys
  simp [List.mem_map, eq_comm]

/-- Assigning key `k` leaves the key list unchanged when `k` is already
present and appends `k` otherwise. -/
lemma dictKeys_dictSet (d : Dict) (k v : String) :
    dictKeys (dictSet d k v) =
      if k ∈ dictKeys d then dictKeys d else dictKeys d ++ [k] := by
  unfold dictSet
  have hmem : (d.any fun p => p.1 = k) = true ↔ k ∈ dictKeys d := by
    rw [mem_dictKeys]
    simp [List.any_eq_true]
  by_cases h : (d.any fun p => p.1 = k) = true
  · rw [if_pos (hmem.mp h), if_pos h]
    unfold dictKeys
    rw [List.map_map]
    apply List.map_congr_left
    intro p _
    by_cases hp : p.1 = k <;> simp [hp]
  · rw [if_neg h, if_neg (fun hk => h (hmem.mpr hk))]
    unfold dictKeys
    simp

lemma mem_dictKeys_dictSet_self (d : Dict) (k v : String) :
    k ∈ dictKeys (dictSet d k v) := by
  rw [dictKeys_dictSet]
  by_cases h : k ∈ dictKeys d <;> simp [h]

lemma mem_dictKeys_dictSet_of_mem (d : Dict) (k v x : String)
    (h : x ∈ dictKeys d) : x ∈ dictKeys (dictSet d k v) := by
  rw [dictKeys_dictSet]
  by_cases hk : k ∈ dictKeys d <;> simp [hk, h]

lemma eq_or_mem_of_mem_dictKeys_dictSet (d : Dict) (k v x : String)
    (h : x ∈ dictKeys (dictSet d k v)) : x = k ∨ x ∈ dictKeys d := by
  rw [dictKeys_dictSet] at h
  by_cases hk : k ∈ dictKeys d
  · rw [if_pos hk] at h; exact Or.inr h
  · rw [if_neg hk] at h
    rcases List.mem_append.mp h with h | h
    · exact Or.inr h
    · simp at h; exact Or.inl h

lemma find?_mapSet_self (t : List (String × String)) (k v : String)
    (hmem : ∃ p ∈ t, p.1 = k) :
    ((t.map fun p => if p.1 = k then (k, v) else p).find?
        fun p => p.1 = k) = some (k, v) := by
  induction t with
  | nil => simp at hmem
  | cons a t ih =>
    by_cases ha : a.1 = k
    · simp [List.find?_cons, ha]
    · rw [List.map_cons, if_neg ha, List.find?_cons]
      have hd : (decide (a.1 = k)) = false := by simp [ha]
      simp only [hd]
      apply ih
      rcases hmem with ⟨p, hp, hpk⟩
      rcases List.mem_cons.mp hp with rfl | hp'
      · exact absurd hpk ha
      · exact ⟨p, hp', hpk⟩

lemma find?_mapSet_ne (t : List (String × String)) (k v x : String)
    (h : x ≠ k) :
    ((t.map fun p => if p.1 = k then (k, v) else p).find?
        fun p => p.1 = x) = t.find? fun p => p.1 = x := by
  induction t with
  | nil => rfl
  | cons a t ih =>
    rw [List.map_cons, List.find?_cons, List.find?_cons]
    by_cases ha : a.1 = k
    · rw [if_pos ha]
      simp [ha, Ne.symm h, ih]
    · rw [if_neg ha]
      by_cases hax : a.1 = x
      · simp [hax]
      · simp [hax, ih]

lemma dictGet_dictSet_self (d : Dict) (k v : String) :
    dictGet (dictSet d k v) k = some v := by
  unfold dictSet dictGet
  by_cases h : (d.any fun p => p.1 = k) = true
  · rw [if_pos h, find?_mapSet_self]
    · rfl
    · rcases List.any_eq_true.mp h with ⟨p, hp, hpk⟩
      exact ⟨p, hp, by simpa using hpk⟩
  · rw [if_neg h]
    have hnone : (d.find? fun p => p.1 = k) = none := by
      rw [List.find?_eq_none]
      intro p hp hpk
      exact h (List.any_eq_true.mpr ⟨p, hp, hpk⟩)
    rw [List.find?_append, hnone]
    simp

lemma dictGet_dictSet_ne (d : Dict) (k v x : String) (h : x ≠ k) :
    dictGet (dictSet d k v) x = dictGet d x := by
  unfold dictSet dictGet
  by_cases hany : (d.any fun p => p.1 = k) = true
  · rw [if_pos hany, find?_mapSet_ne _ _ _ _ h]
  · rw [if_neg hany, List.find?_append]
    cases hfind : d.find? fun p => p.1 = x with
    | some p => simp
    | none => simp [Ne.symm h]

/-- Keys produced by folding dict assignments over a list of pairs. -/
lemma dictKeys_foldl_dictSet (l : List (String × String)) :
    ∀ (d : Dict) (x : String),
      x ∈ dictKeys (l.foldl (fun d kv => dictSet d kv.1 kv.2) d) →
        x ∈ dictKeys d ∨ x ∈ l.map Prod.fst := by
  induction l with
  | nil => intro d x h; exact Or.inl h
  | cons a t ih =>
    intro d x h
    rw [List.foldl_cons] at h
    rcases ih (dictSet d a.1 a.2) x h with h' | h'
    · rcases eq_or_mem_of_mem_dictKeys_dictSet d a.1 a.2 x h' with h2 | h2
      · exact Or.inr (by simp [h2])
      · exact Or.inl h2
    · exact Or.inr (by simp [h'])

/-! ## Helper lemmas: detail-page parsing -/

lemma tagField_mem_detailFields (label f : String)
    (h : tagField label = some f) : f ∈ detailFields := by
  unfold tagField at h
  split_ifs at h <;> simp_all [detailFields]

lemma except_bind_error {α β : Type} (e : PyExc)
    (f : α → Except PyExc β) :
    (Except.error e >>= f : Except PyExc β) = Except.error e := rfl

lemma except_bind_ok {α β : Type} (a : α) (f : α → Except PyExc β) :
    (Except.ok a >>= f : Except PyExc β) = f a := rfl

/-- The `.tag-item` loop only ever writes the eight attribute fields,
so key membership in `detailFields` is an invariant of the fold. -/
lemma foldlM_processTag_keys :
    ∀ (tags : List TagItem) (data d : Dict),
      tags.foldlM processTag data = .ok d →
      (∀ x ∈ dictKeys data, x ∈ detailFields) →
      ∀ x ∈ dictKeys d, x ∈ detailFields := by
  intro tags
  induction tags with
  | nil =>
    intro data d h hinv
    simp only [List.foldlM_nil] at h
    cases h
    exact hinv
  | cons t ts ih =>
    intro data d h hinv
    rw [List.foldlM_cons] at h
    obtain ⟨tspan, tbdi⟩ := t
    cases tspan with
    | none => simp [processTag, except_bind_error] at h
    | some label =>
      cases tbdi with
      | none => simp [processTag, except_bind_error] at h
      | some val =>
        cases hf : tagField label with
        | some f =>
          simp only [processTag, hf, except_bind_ok] at h
          refine ih _ d h ?_
          intro x hx
          rcases eq_or_mem_of_mem_dictKeys_dictSet data f val x hx with
            rfl | hx'
          · exact tagField_mem_detailFields label x hf
          · exact hinv x hx'
        | none =>
          simp only [processTag, hf, except_bind_ok] at h
          exact ih _ d h hinv

/-- The `.tag-item` loop succeeds on a page whose tag items all have
their `span` and `bdi` children. -/
lemma foldlM_processTag_ok :
    ∀ (tags : List TagItem) (data : Dict),
      (∀ t ∈ tags, t.span ≠ none ∧ t.bdi ≠ none) →
      ∃ d, tags.foldlM processTag data = .ok d := by
  intro tags
  induction tags with
  | nil => intro data _; exact ⟨data, rfl⟩
  | cons t ts ih =>
    intro data hwf
    obtain ⟨hspan, hbdi⟩ := hwf t (List.mem_cons_self t ts)
    have hts : ∀ u ∈ ts, u.span ≠ none ∧ u.bdi ≠ none :=
      fun u hu => hwf u (List.mem_cons_of_mem t hu)
    obtain ⟨tspan, tbdi⟩ := t
    cases tspan with
    | none => exact absurd rfl hspan
    | some label =>
      cases tbdi with
      | none => exact absurd rfl hbdi
      | some val =>
        rw [List.foldlM_cons]
        cases hf : tagField label with
        | some f =>
          obtain ⟨d, hrest⟩ := ih (dictSet data f val) hts
          exact ⟨d, by simp only [processTag, hf, except_bind_ok]; exact hrest⟩
        | none =>
          obtain ⟨d, hrest⟩ := ih data hts
          exact ⟨d, by simp only [processTag, hf, except_bind_ok]; exact hrest⟩

/-- A successful `parse_detail` record: its keys always include the two
price keys and never leave `detailFields`. -/
lemma parseDetailBody_keys (p : Page) (d : Dict)
    (h : parseDetailBody p = .ok d) :
    "price_value" ∈ dictKeys d ∧ "price_currency" ∈ dictKeys d ∧
      ∀ x ∈ dictKeys d, x ∈ detailFields := by
  obtain ⟨tags, pe, ce⟩ := p
  unfold parseDetailBody at h
  cases hf : tags.foldlM processTag ([] : Dict) with
  | error e => rw [hf, except_bind_error] at h; cases h
  | ok data =>
    rw [hf, except_bind_ok] at h
    have hdata : ∀ x ∈ dictKeys data, x ∈ detailFields :=
      foldlM_processTag_keys tags [] data hf (by simp [dictKeys])
    have hform : ∃ pv cur,
        d = dictSet (dictSet data "price_value" pv) "price_currency" cur := by
      cases pe with
      | none =>
        simp only [except_bind_ok] at h
        cases h
        exact ⟨"", _, rfl⟩
      | some a =>
        cases a with
        | none =>
          simp only [except_bind_error] at h
          cases h
        | some v =>
          simp only [except_bind_ok] at h
          cases h
          exact ⟨v, _, rfl⟩
    obtain ⟨pv, cur, rfl⟩ := hform
    refine ⟨?_, ?_, ?_⟩
    · exact mem_dictKeys_dictSet_of_mem _ _ _ _
        (mem_dictKeys_dictSet_self data "price_value" pv)
    · exact mem_dictKeys_dictSet_self _ "price_currency" _
    · intro x hx
      rcases eq_or_mem_of_mem_dictKeys_dictSet _ _ _ x hx with rfl | hx'
      · simp [detailFields]
      · rcases eq_or_mem_of_mem_dictKeys_dictSet _ _ _ x hx' with rfl | hx''
        · simp [detailFields]
        · exact hdata x hx''

lemma detailFields_sub_FIELDNAMES :
    ∀ x ∈ detailFields, x ∈ FIELDNAMES := by decide

/-- Any row built from a successful `parse_detail` record is accepted
by the `DictWriter`: all its keys are configured columns. -/
lemma rowOk_of_parseDetailBody (p : Page) (d : Dict) (url : String)
    (h : parseDetailBody p = .ok d) : rowOk (url, d) = true := by
  obtain ⟨_, _, hsub⟩ := parseDetailBody_keys p d h
  unfold rowOk
  rw [List.all_eq_true]
  intro k hk
  unfold rowDict at hk
  have hmem : k ∈ FIELDNAMES := by
    rcases dictKeys_foldl_dictSet d _ k hk with hinit | hin
    · simp only [dictKeys, List.map_cons, List.map_nil, List.mem_cons,
        List.not_mem_nil, or_false] at hinit
      rcases hinit with rfl | rfl <;> simp [FIELDNAMES]
    · exact detailFields_sub_FIELDNAMES k (hsub k hin)
  exact List.elem_iff.mpr hmem

/-! ## Helper lemmas: the scheduler -/

lemma parse_detail_rowOk (site : Site) (href : String)
    (r : String × Dict) (h : parse_detail site href = .ok r) :
    rowOk r = true := by
  unfold parse_detail at h
  simp only [] at h
  cases hfr : fetchResult (site.detailFetch (resolveUrl href)) with
  | error e => rw [hfr, except_bind_error] at h; cases h
  | ok body =>
    rw [hfr, except_bind_ok] at h
    cases hpd : parseDetailBody (site.detailPage body) with
    | error e => rw [hpd, except_bind_error] at h; cases h
    | ok data =>
      rw [hpd, except_bind_ok] at h
      cases h
      exact rowOk_of_parseDetailBody _ _ _ hpd

/-- Accumulating successful results with `results.append` is filtering
the failures out. -/
lemma foldl_collect (site : Site) :
    ∀ (l : List String) (acc : List (String × Dict)),
      l.foldl
        (fun acc href =>
          match parse_detail site href with
          | .ok r => acc ++ [r]
          | .error _ => acc)
        acc = acc ++ l.filterMap
          (fun href => (parse_detail site href).toOption) := by
  intro l
  induction l with
  | nil => intro acc; simp
  | cons a t ih =>
    intro acc
    rw [List.foldl_cons, List.filterMap_cons]
    cases hf : parse_detail site a with
    | ok r => simp [hf, ih, Except.toOption]
    | error e => simp [hf, ih, Except.toOption]

lemma scrape_page_of_fetch_ok (site : Site) (p : Nat) (body : String)
    (h : fetchResult (site.indexFetch (pageUrl p)) = .ok body) :
    scrape_page site p =
      .ok ((site.indexLinks body).filterMap
        (fun href => (parse_detail site href).toOption)) := by
  unfold scrape_page
  rw [h, except_bind_ok]
  simp only []
  rw [foldl_collect]
  rfl

lemma scrape_page_of_fetch_error (site : Site) (p : Nat) (e : PyExc)
    (h : fetchResult (site.indexFetch (pageUrl p)) = .error e) :
    scrape_page site p = .error e := by
  unfold scrape_page
  rw [h, except_bind_error]

/-- What one page contributes to the output, stated without the
`takeWhile`: since every successful `parse_detail` row is accepted by
the writer, no page's write loop is ever cut short. -/
lemma perPageWritten_eq (site : Site) (p : Nat) :
    perPageWritten site p =
      match fetchResult (site.indexFetch (pageUrl p)) with
      | .error _ => []
      | .ok body =>
        (site.indexLinks body).filterMap
          (fun href => (parse_detail site href).toOption) := by
  unfold perPageWritten
  cases hfr : fetchResult (site.indexFetch (pageUrl p)) with
  | error e => rw [scrape_page_of_fetch_error site p e hfr]
  | ok body =>
    rw [scrape_page_of_fetch_ok site p body hfr]
    simp only
    rw [List.takeWhile_eq_self_iff]
    intro r hr
    obtain ⟨href, _, hok⟩ := List.mem_filterMap.mp hr
    cases hpd : parse_detail site href with
    | error e => rw [hpd] at hok; cases hok
    | ok r' =>
      rw [hpd] at hok
      cases hok
      exact parse_detail_rowOk site href r hpd

lemma foldl_append_flatMap {α β : Type} (g : α → List β) :
    ∀ (l : List α) (acc : List β),
      l.foldl (fun a x => a ++ g x) acc = acc ++ l.flatMap g := by
  intro l
  induction l with
  | nil => intro acc; simp
  | cons a t ih => intro acc; simp [ih]

/-- `main` writes pages chunk by chunk, page by page: the written items
are the concatenation over the flattened chunk list. -/
lemma mainItems_flatten (site : Site) (pages cs : Nat) :
    mainItems site pages cs =
      ((pyRangeStep 0 pages cs).flatMap (chunkAt pages cs)).flatMap
        (perPageWritten site) := by
  unfold mainItems
  have hinner : (fun (acc : List (String × Dict)) i =>
      (chunkAt pages cs i).foldl
        (fun acc2 p => acc2 ++ perPageWritten site p) acc) =
      (fun acc i => acc ++ (chunkAt pages cs i).flatMap
        (perPageWritten site)) := by
    funext acc i
    exact foldl_append_flatMap (perPageWritten site) (chunkAt pages cs i) acc
  rw [hinner, foldl_append_flatMap, List.nil_append, List.flatMap_assoc]

/-- The chunks enumerated from position `i` cover exactly the pages
`i+1 .. pages`, each exactly once and in order. -/
lemma pyRangeGo_chunks_join (pages cs : Nat) (hcs : 0 < cs) :
    ∀ (n i : Nat), pages - i ≤ n →
      (pyRangeGo pages cs n i).flatMap (chunkAt pages cs) =
        List.range' (i + 1) (pages - i) := by
  intro n
  induction n with
  | zero =>
    intro i hle
    have h0 : pages - i = 0 := by omega
    simp [pyRangeGo, h0]
  | succ m ih =>
    intro i hle
    by_cases hip : i < pages
    · have hstep : pyRangeGo pages cs (m + 1) i =
          i :: pyRangeGo pages cs m (i + cs) := by
        rw [pyRangeGo, if_pos ⟨hcs, hip⟩]
      rw [hstep, List.flatMap_cons, ih (i + cs) (by omega)]
      unfold chunkAt
      rcases le_or_lt (i + cs) pages with hc | hc
      · have h1 : min pages (i + cs) - i = cs := by omega
        have h2 : i + cs + 1 = i + 1 + 1 * cs := by ring
        rw [h1, h2, List.range'_append]
        congr 1
        omega
      · have h1 : min pages (i + cs) - i = pages - i := by omega
        have h2 : pages - (i + cs) = 0 := by omega
        rw [h1, h2]
        simp
    · have hstep : pyRangeGo pages cs (m + 1) i = [] := by
        rw [pyRangeGo, if_neg (by omega)]
      rw [hstep]
      have h0 : pages - i = 0 := by omega
      simp [h0]

/-- The outer `range(0, PAGES, CHUNK_SIZE)` chunks cover exactly pages
`1 .. pages`, in ascending order. -/
lemma pyRangeStep_chunks_join (pages cs : Nat) (hcs : 0 < cs) :
    (pyRangeStep 0 pages cs).flatMap (chunkAt pages cs) =
      List.range' 1 pages := by
  unfold pyRangeStep
  have h := pyRangeGo_chunks_join pages cs hcs (pages - 0) 0 (by omega)
  simpa using h

/-- Every chunk start produced by the outer `range` call is below the
page bound. -/
lemma pyRangeGo_mem_lt (stop step : Nat) :
    ∀ (n start x : Nat), x ∈ pyRangeGo stop step n start →
      start ≤ x ∧ x < stop := by
  intro n
  induction n with
  | zero => intro start x hx; simp [pyRangeGo] at hx
  | succ m ih =>
    intro start x hx
    rw [pyRangeGo] at hx
    by_cases h : 0 < step ∧ start < stop
    · rw [if_pos h] at hx
      rcases List.mem_cons.mp hx with rfl | hx'
      · omega
      · have := ih (start + step) x hx'
        omega
    · rw [if_neg h] at hx
      cases hx

/-- The chunk lengths of a run sum to the page count. -/
lemma sum_chunk_lengths (pages cs : Nat) (hcs : 0 < cs) :
    ((pyRangeStep 0 pages cs).map
      (fun i => (chunkAt pages cs i).length)).sum = pages := by
  have h1 : (pyRangeStep 0 pages cs).map
      (fun i => (chunkAt pages cs i).length) =
      ((pyRangeStep 0 pages cs).map (chunkAt pages cs)).map
        List.length := by
    rw [List.map_map]
    rfl
  rw [h1, ← List.length_join, ← List.flatMap_def,
    pyRangeStep_chunks_join pages cs hcs, List.length_range']

/-- The full refinement: the items `main` writes are exactly the
spec-side success list, in order. -/
lemma mainItems_eq_spec (site : Site) (pages cs : Nat) (hcs : 0 < cs) :
    mainItems site pages cs = specSuccessItems site pages := by
  rw [mainItems_flatten, pyRangeStep_chunks_join pages cs hcs]
  unfold specSuccessItems
  apply List.flatMap_congr
  intro p _
  rw [perPageWritten_eq]

/-! ## Concrete environments used by witnesses and counterexamples -/

/-- Three listing links on one page: the first detail page needs all
three attempts (two HTTP 500s, then 200), the second succeeds at once,
the third always returns HTTP 404 and ends as a recorded failure. -/
def siteRetry : Site where
  indexFetch := fun _ _ => .response 200 "idx"
  indexLinks := fun _ => ["/a", "/b", "/bad"]
  detailFetch := fun url a =>
    if url = "https://www.merrjep.al/a" then
      (if a < 3 then .response 500 "boom" else .response 200 "pageA")
    else if url = "https://www.merrjep.al/bad" then .response 404 "nf"
    else .response 200 "pageB"
  detailPage := fun b =>
    if b = "pageA" then
      ⟨[⟨some "Viti i prodhimit", some "2015"⟩], some (some "9500"),
        some "EUR"⟩
    else ⟨[], none, none⟩
  clock := fun _ => "2026-10-12T00:00:00"

/-- Page 1's index fetch always answers HTTP 503 (a terminal page-index
failure after retries); page 2 lists one good link and one link whose
fetch dies on a connection reset. -/
def siteMixed : Site where
  indexFetch := fun url _ =>
    if url = pageUrl 1 then .response 503 "unavailable"
    else .response 200 "idx"
  indexLinks := fun _ => ["/ok", "/broken"]
  detailFetch := fun url _ =>
    if url = "https://www.merrjep.al/broken" then .exn .connectionError
    else .response 200 "detail"
  detailPage := fun _ => ⟨[⟨some "Ngjyra", some "Blu"⟩], none, some "EUR"⟩
  clock := fun n => toString n

/-- A detail page that is fetched fine but whose only `.tag-item` is
missing both its `span` and `bdi` children. -/
def siteBrokenTag : Site where
  indexFetch := fun _ _ => .response 200 "idx"
  indexLinks := fun _ => ["/x"]
  detailFetch := fun _ _ => .response 200 "detail"
  detailPage := fun _ => ⟨[⟨none, none⟩], none, none⟩
  clock := fun _ => "t"

/-- Every `session.get` raises the malformed-URL exception
(`requests.exceptions.MissingSchema`), as it would with a broken
`BASE_URL`. -/
def siteBadUrl : Site where
  indexFetch := fun _ _ => .exn .invalidURL
  indexLinks := fun _ => []
  detailFetch := fun _ _ => .exn .invalidURL
  detailPage := fun _ => ⟨[], none, none⟩
  clock := fun _ => "t"

/-! ## Claim C2 -/

/-- Claim C2 (counterexample): the claim says a fetch failing with a
non-transient 4xx status such as 404 fails immediately on the first
attempt, with no retries and no backoff wait.  On the code it is false:
`get_with_retries` catches every `requests.HTTPError` alike, so a
steady 404 is fetched 3 times with sleeps of 2 and 4 seconds in
between. -/
theorem http404_retried_counterexample :
    (get_with_retries (fun _ => .response 404 "Not Found") 3 2).attempts
        = 3 ∧
    (get_with_retries (fun _ => .response 404 "Not Found") 3 2).waits
        = [2, 4] ∧
    ¬ ((get_with_retries (fun _ => .response 404 "Not Found") 3 2).attempts
          = 1 ∧
        (get_with_retries (fun _ => .response 404 "Not Found") 3 2).waits
          = []) := by
  decide

/-- Claim C2 (amended): a fetch answered with a 4xx status other than
429 is not failed immediately — the code does not distinguish
non-transient HTTP errors, so such a fetch is retried like any other
HTTP error, up to the attempt limit (default 3) with backoff waits 2
and 4 seconds, and only then raises the terminal `HTTPError`. -/
theorem http_4xx_retried_not_immediate (s : Nat) (body : String)
    (h4 : 400 ≤ s) (h5 : s < 500) (_h429 : s ≠ 429) :
    get_with_retries (fun _ => .response s body) 3 2 =
      ⟨some (.error (.httpError s)), 3, [2, 4]⟩ := by
  rw [get_with_retries_const_httpError s body 3 2 h4 (by omega) (by omega)]
  rfl

theorem http_4xx_retried_not_immediate_witness :
    (400 ≤ 404 ∧ 404 < 500 ∧ (404 : Nat) ≠ 429) ∧
      get_with_retries (fun _ => .response 404 "Not Found") 3 2 =
        ⟨some (.error (.httpError 404)), 3, [2, 4]⟩ :=
  ⟨by decide,
    http_4xx_retried_not_immediate 404 "Not Found" (by decide) (by decide)
      (by decide)⟩

/-! ## Claim C3 -/

/-- Claim C3 (counterexample): the claim says a transient failure —
HTTP 5xx, connection reset, or timeout — is retried, and in particular
a timeout on an early attempt does not immediately propagate.  On the
code it is false for timeouts: the loop catches only
`requests.HTTPError`, so a timeout on the first attempt propagates at
once, after a single attempt with no backoff wait. -/
theorem timeout_propagates_immediately_counterexample :
    (get_with_retries (fun _ => .exn .timeoutError) 3 2).result =
      some (.error .timeoutError) ∧
    (get_with_retries (fun _ => .exn .timeoutError) 3 2).attempts = 1 ∧
    (get_with_retries (fun _ => .exn .timeoutError) 3 2).waits = [] :=
  ⟨rfl, rfl, rfl⟩

/-- Claim C3 (amended): a fetch answered with HTTP error statuses
(including 5xx) is retried up to the configured maximum attempt count
(default 3) before reporting a terminal failure — two 500s followed by
a 200 still succeed — but a timeout or connection reset is not caught
by the retry loop and propagates immediately as an error on its first
occurrence. -/
theorem http_5xx_retried_transport_errors_propagate :
    (∀ (s : Nat) (body okBody : String), 500 ≤ s → s < 600 →
      get_with_retries
          (fun i => if i ≤ 2 then .response s body
            else .response 200 okBody) 3 2 =
        ⟨some (.ok okBody), 3, [2, 4]⟩) ∧
    (∀ (s : Nat) (body : String), 500 ≤ s → s < 600 →
      get_with_retries (fun _ => .response s body) 3 2 =
        ⟨some (.error (.httpError s)), 3, [2, 4]⟩) ∧
    (∀ e : PyExc, get_with_retries (fun _ => .exn e) 3 2 =
      ⟨some (.error e), 1, []⟩) := by
  refine ⟨?_, ?_, ?_⟩
  · intro s body okBody h5 h6
    have hs : 400 ≤ s ∧ s < 600 := by omega
    have h200 : ¬ (400 ≤ 200 ∧ 200 < 600) := by omega
    simp [get_with_retries, getGo, hs, h200]
  · intro s body h5 h6
    rw [get_with_retries_const_httpError s body 3 2 (by omega) h6
      (by omega)]
    rfl
  · intro e
    exact get_with_retries_exn_first (fun _ => .exn e) e 3 2 (by omega) rfl

theorem http_5xx_retried_transport_errors_propagate_witness :
    (500 ≤ 503 ∧ 503 < 600) ∧
      get_with_retries
          (fun i => if i ≤ 2 then .response 503 "unavailable"
            else .response 200 "fine") 3 2 =
        ⟨some (.ok "fine"), 3, [2, 4]⟩ :=
  ⟨by decide,
    http_5xx_retried_transport_errors_propagate.1 503 "unavailable" "fine"
      (by decide) (by decide)⟩

/-! ## Claim C8 -/

/-- Claim C8: for every retried fetch the sleep between attempt `k` and
attempt `k+1` is `backoff * 2 ^ (k - 1)` seconds (doubling from the
configured base; here 0-indexed, the `k`-th recorded wait is
`backoff * 2 ^ k`), and a fetch whose attempts all fail with HTTP
errors exhausts the maximum attempt count and raises the terminal
`HTTPError` to the caller. -/
theorem backoff_doubles_and_exhaustion_is_terminal :
    (∀ (fetch : Nat → AttemptResult) (retries b0 k : Nat),
        k < (get_with_retries fetch retries b0).waits.length →
        (get_with_retries fetch retries b0).waits.get? k =
          some (b0 * 2 ^ k)) ∧
    (∀ (s : Nat) (body : String) (retries b0 : Nat),
        400 ≤ s → s < 600 → 1 ≤ retries →
        get_with_retries (fun _ => .response s body) retries b0 =
          ⟨some (.error (.httpError s)), retries,
            geometricWaits b0 (retries - 1)⟩) := by
  constructor
  · intro fetch retries b0 k hk
    obtain ⟨n, hn⟩ := getGo_waits fetch retries retries 1 b0
    unfold get_with_retries at hk ⊢
    rw [hn] at hk ⊢
    unfold geometricWaits at hk ⊢
    rw [List.get?_map]
    rw [List.length_map, List.length_range] at hk
    rw [List.get?_range hk]
    rfl
  · intro s body retries b0 h4 h6 hr
    exact get_with_retries_const_httpError s body retries b0 h4 h6 hr

theorem backoff_doubles_and_exhaustion_is_terminal_witness :
    (1 < (get_with_retries (fun _ => .response 500 "err") 3 2).waits.length ∧
      (get_with_retries
        (fun _ => .response 500 "err") 3 2).waits.get? 1 =
          some (2 * 2 ^ 1)) ∧
    ((400 ≤ 500 ∧ 500 < 600 ∧ 1 ≤ 3) ∧
      get_with_retries (fun _ => .response 500 "err") 3 2 =
        ⟨some (.error (.httpError 500)), 3, geometricWaits 2 2⟩) :=
  ⟨⟨by decide,
      backoff_doubles_and_exhaustion_is_terminal.1
        (fun _ => .response 500 "err") 3 2 1 (by decide)⟩,
    ⟨by decide,
      backoff_doubles_and_exhaustion_is_terminal.2 500 "err" 3 2
        (by decide) (by decide) (by decide)⟩⟩

/-! ## Claim C4 -/

/-- Claim C4 (counterexample): the claim says any parse-level anomaly
on a successfully fetched detail page yields a record with the affected
fields missing and never a hard failure of that item.  On the code it
is false: a `.tag-item` without a `span` child makes
`tag.find("span").get_text(...)` raise `AttributeError`, a hard failure
of the item — `siteBrokenTag` serves such a page with HTTP 200, its
`parse_detail` raises, and the item is dropped from the page's results
instead of yielding a field-poor record. -/
theorem parse_anomaly_hard_failure_counterexample :
    parse_detail siteBrokenTag "/x" = .error .attributeError ∧
    scrape_page siteBrokenTag 1 = .ok [] :=
  ⟨rfl, rfl⟩

/-- Claim C4 (amended): on a successfully fetched detail page, an
absent attribute block or an absent price block degrades to missing
fields — in particular a missing price block yields empty strings for
`price_value` and `price_currency` — but a malformed block is a hard
failure of that item: a `.tag-item` without its `span` or `bdi` child
raises `AttributeError`, and a price element without its `value`
attribute raises `KeyError` (both are then caught by the scheduler as
an item-level failure). -/
theorem parse_absent_degrades_malformed_raises :
    (∀ page : Page,
        (∀ t ∈ page.tagItems, t.span ≠ none ∧ t.bdi ≠ none) →
        page.priceElem ≠ some none →
        ∃ d, parseDetailBody page = .ok d) ∧
    (∀ (page : Page) (d : Dict), page.priceElem = none →
        parseDetailBody page = .ok d →
        dictGet d "price_value" = some "" ∧
        (page.currencyElem = none → dictGet d "price_currency" = some "")) ∧
    parseDetailBody ⟨[⟨none, some "v"⟩], none, none⟩ =
      .error .attributeError ∧
    parseDetailBody ⟨[⟨some "Viti", none⟩], none, none⟩ =
      .error .attributeError ∧
    parseDetailBody ⟨[], some none, none⟩ = .error .keyError := by
  refine ⟨?_, ?_, rfl, rfl, rfl⟩
  · intro page hwf hpe
    obtain ⟨tags, pe, ce⟩ := page
    obtain ⟨data, hfold⟩ := foldlM_processTag_ok tags ([] : Dict) hwf
    unfold parseDetailBody
    simp only []
    rw [hfold, except_bind_ok]
    cases pe with
    | none => exact ⟨_, rfl⟩
    | some a =>
      cases a with
      | none => exact absurd rfl hpe
      | some v => exact ⟨_, rfl⟩
  · intro page d hpe h
    obtain ⟨tags, pe, ce⟩ := page
    subst hpe
    unfold parseDetailBody at h
    cases hfold : tags.foldlM processTag ([] : Dict) with
    | error e => rw [hfold, except_bind_error] at h; cases h
    | ok data =>
      rw [hfold, except_bind_ok] at h
      simp only [except_bind_ok] at h
      cases h
      refine ⟨?_, ?_⟩
      · rw [dictGet_dictSet_ne _ _ _ _ (by decide), dictGet_dictSet_self]
      · intro hce
        subst hce
        rw [dictGet_dictSet_self]

theorem parse_absent_degrades_malformed_raises_witness :
    ((∀ t ∈ ([⟨some "Viti i prodhimit", some "2015"⟩] : List TagItem),
        t.span ≠ none ∧ t.bdi ≠ none) ∧
      (none : Option (Option String)) ≠ some none) ∧
    (∃ d, parseDetailBody
      ⟨[⟨some "Viti i prodhimit", some "2015"⟩], none, none⟩ = .ok d) :=
  ⟨⟨by decide, by decide⟩,
    parse_absent_degrades_malformed_raises.1
      ⟨[⟨some "Viti i prodhimit", some "2015"⟩], none, none⟩
      (by decide) (by decide)⟩

/-! ## Claim C10 -/

/-- Claim C10: every field map the detail extractor returns contains
the keys `price_value` and `price_currency`, every key it contains is
one of the ten configured attribute fields, and so every row dict
handed to `csv.DictWriter` (timestamp and listing URL included) only
has configured columns and is never rejected by the writer. -/
theorem detail_record_keys_closed (p : Page) (d : Dict)
    (h : parseDetailBody p = .ok d) :
    "price_value" ∈ dictKeys d ∧ "price_currency" ∈ dictKeys d ∧
    (∀ x ∈ dictKeys d, x ∈ detailFields) ∧
    (∀ ts url : String, ∀ x ∈ dictKeys (rowDict ts url d),
      x ∈ FIELDNAMES) ∧
    (∀ url : String, rowOk (url, d) = true) := by
  obtain ⟨hpv, hpc, hsub⟩ := parseDetailBody_keys p d h
  refine ⟨hpv, hpc, hsub, ?_, fun url => rowOk_of_parseDetailBody p d url h⟩
  intro ts url x hx
  unfold rowDict at hx
  rcases dictKeys_foldl_dictSet d _ x hx with hinit | hin
  · simp only [dictKeys, List.map_cons, List.map_nil, List.mem_cons,
      List.not_mem_nil, or_false] at hinit
    rcases hinit with rfl | rfl <;> simp [FIELDNAMES]
  · exact detailFields_sub_FIELDNAMES x (hsub x hin)

theorem detail_record_keys_closed_witness :
    parseDetailBody ⟨[⟨some "Modeli", some "Golf"⟩], some (some "5000"),
        some "EUR"⟩ =
      .ok [("model", "Golf"), ("price_value", "5000"),
        ("price_currency", "EUR")] ∧
    ("price_value" ∈ dictKeys [("model", "Golf"), ("price_value", "5000"),
        ("price_currency", "EUR")] ∧
      "price_currency" ∈ dictKeys [("model", "Golf"),
        ("price_value", "5000"), ("price_currency", "EUR")] ∧
      (∀ x ∈ dictKeys [("model", "Golf"), ("price_value", "5000"),
        ("price_currency", "EUR")], x ∈ detailFields) ∧
      (∀ ts url : String, ∀ x ∈ dictKeys (rowDict ts url
        [("model", "Golf"), ("price_value", "5000"),
          ("price_currency", "EUR")]), x ∈ FIELDNAMES) ∧
      (∀ url : String, rowOk (url, [("model", "Golf"),
        ("price_value", "5000"), ("price_currency", "EUR")]) = true)) :=
  ⟨rfl,
    detail_record_keys_closed
      ⟨[⟨some "Modeli", some "Golf"⟩], some (some "5000"), some "EUR"⟩
      [("model", "Golf"), ("price_value", "5000"),
        ("price_currency", "EUR")] rfl⟩

/-! ## Claim C1 -/

/-- Claim C1: for every listing URL whose detail page is successfully
fetched and parsed, exactly one ListingRecord row is appended to the
output — no duplicates and no drops — even when the Fetcher internally
retried the fetch before succeeding.  Stated as a refinement: the items
`main` writes are exactly the spec-side list of successful work items,
in order, so each success contributes exactly one row and each terminal
failure contributes none; retries inside `get_with_retries` return a
single response and hence a single item.  (Thread completion order is
modelled as submission order; the count consequences are
order-independent.) -/
theorem fetched_parsed_appended_exactly_once (site : Site)
    (pages cs : Nat) (hcs : 0 < cs) :
    mainItems site pages cs = specSuccessItems site pages ∧
    (mainFile site pages cs).length =
      1 + (specSuccessItems site pages).length ∧
    ∀ u : String, ((mainItems site pages cs).map Prod.fst).count u =
      ((specSuccessItems site pages).map Prod.fst).count u := by
  have h := mainItems_eq_spec site pages cs hcs
  refine ⟨h, ?_, fun u => by rw [h]⟩
  unfold mainFile
  rw [List.length_cons, List.length_map, List.enum_length, h]
  omega

theorem fetched_parsed_appended_exactly_once_witness :
    0 < 5 ∧
      (mainItems siteRetry 1 5 = specSuccessItems siteRetry 1 ∧
        (mainFile siteRetry 1 5).length =
          1 + (specSuccessItems siteRetry 1).length ∧
        ∀ u : String, ((mainItems siteRetry 1 5).map Prod.fst).count u =
          ((specSuccessItems siteRetry 1).map Prod.fst).count u) ∧
      (specSuccessItems siteRetry 1).length = 2 :=
  ⟨by decide,
    fetched_parsed_appended_exactly_once siteRetry 1 5 (by decide),
    by decide⟩

/-! ## Claim C5 -/

/-- Claim C5 (counterexample): the claim says the fixed column order
starts with a column named `scrape_timestamp`.  On the code it is
false: no column is named `scrape_timestamp` — the first column of
`FIELDNAMES` is named `scrape_date`. -/
theorem first_column_named_scrape_date_counterexample :
    "scrape_timestamp" ∉ FIELDNAMES ∧
    FIELDNAMES.head? = some "scrape_date" := by
  decide

/-- Claim C5 (amended): every row of the output dataset is serialized
in the fixed column order `scrape_date, listing_url, year,
transmission, mileage, fuel, municipality, color, make, model,
price_value, price_currency`, and a header row naming exactly these
columns is written exactly once, at the start of the run, before any
record row. -/
theorem output_columns_fixed_header_once (site : Site) (pages cs : Nat) :
    FIELDNAMES = ["scrape_date", "listing_url", "year", "transmission",
      "mileage", "fuel", "municipality", "color", "make", "model",
      "price_value", "price_currency"] ∧
    ∃ rows, mainFile site pages cs = FIELDNAMES :: rows ∧
      rows.length = (mainItems site pages cs).length ∧
      ∀ r ∈ rows, ∃ row : Dict,
        r = FIELDNAMES.map (fun k => (dictGet row k).getD "") := by
  constructor
  · rfl
  · refine ⟨(mainItems site pages cs).enum.map
      (fun r => serializeRow (rowDict (site.clock r.1) r.2.1 r.2.2)),
      ?_, ?_, ?_⟩
    · rfl
    · rw [List.length_map, List.enum_length]
    · intro r hr
      obtain ⟨q, _, rfl⟩ := List.mem_map.mp hr
      exact ⟨rowDict (site.clock q.1) q.2.1 q.2.2, rfl⟩

/-! ## Claim C6 -/

/-- Claim C6: failures are isolated.  A terminally failed detail fetch
is skipped and the remaining items of its page are still processed
(`scrape_page` returns exactly the successful items of its link list);
a terminally failed page-index fetch makes its page contribute zero
items; and the written items are still the concatenation over every
page `1 .. pages`, so no item- or page-level failure aborts the page,
the chunk, or the crawl. -/
theorem failure_isolation (site : Site) (pages cs : Nat) (hcs : 0 < cs) :
    (∀ (p : Nat) (body : String),
        fetchResult (site.indexFetch (pageUrl p)) = .ok body →
        scrape_page site p = .ok ((site.indexLinks body).filterMap
          (fun href => (parse_detail site href).toOption))) ∧
    (∀ (p : Nat) (e : PyExc), scrape_page site p = .error e →
        perPageWritten site p = []) ∧
    mainItems site pages cs =
      (List.range' 1 pages).flatMap (perPageWritten site) := by
  refine ⟨scrape_page_of_fetch_ok site, ?_, ?_⟩
  · intro p e h
    unfold perPageWritten
    rw [h]
  · rw [mainItems_flatten, pyRangeStep_chunks_join pages cs hcs]

theorem failure_isolation_witness :
    0 < 1 ∧
      ((∀ (p : Nat) (body : String),
          fetchResult (siteMixed.indexFetch (pageUrl p)) = .ok body →
          scrape_page siteMixed p =
            .ok ((siteMixed.indexLinks body).filterMap
              (fun href => (parse_detail siteMixed href).toOption))) ∧
        (∀ (p : Nat) (e : PyExc), scrape_page siteMixed p = .error e →
          perPageWritten siteMixed p = []) ∧
        mainItems siteMixed 2 1 =
          (List.range' 1 2).flatMap (perPageWritten siteMixed)) ∧
      scrape_page siteMixed 1 = .error (.httpError 503) ∧
      mainItems siteMixed 2 1 =
        [("https://www.merrjep.al/ok",
          [("color", "Blu"), ("price_value", ""),
            ("price_currency", "EUR")])] :=
  ⟨by decide, failure_isolation siteMixed 2 1 (by decide), rfl, by decide⟩

/-! ## Claim C7 -/

/-- Claim C7 (counterexample): the claim says a configuration error
such as an invalid base URL is fatal at startup — aborting before any
network activity and exiting non-zero.  On the code it is false: no
configuration is validated.  With every `session.get` raising the
malformed-URL exception, the run still issues a network attempt, still
writes the header, completes normally, and exits 0. -/
theorem config_error_not_fatal_counterexample :
    (runScript siteBadUrl 1 5).1 = 0 ∧
    0 < mainCalls siteBadUrl 1 5 ∧
    mainFile siteBadUrl 1 5 = [FIELDNAMES] :=
  ⟨rfl, by decide, by decide⟩

/-- Claim C7 (amended): the program performs no startup configuration
validation.  The run always exits zero — in particular a run whose only
failures are individual item failures exits zero; a zero page count
simply yields a header-only file with no network activity; and an
invalid base URL is not fatal: each page still costs one network
attempt (the raised malformed-URL error is handled as an item-level
failure) and the run writes no rows and exits zero. -/
theorem no_startup_validation_exit_zero (site : Site) (pages cs : Nat)
    (hcs : 0 < cs) :
    (runScript site pages cs).1 = 0 ∧
    (pages = 0 → mainFile site pages cs = [FIELDNAMES] ∧
      mainCalls site pages cs = 0) ∧
    ((∀ url a, site.indexFetch url a = .exn .invalidURL) →
      mainItems site pages cs = [] ∧ mainCalls site pages cs = pages) := by
  refine ⟨rfl, ?_, ?_⟩
  · intro h
    subst h
    exact ⟨rfl, rfl⟩
  · intro hbad
    have hfetch : ∀ p : Nat,
        fetchResult (site.indexFetch (pageUrl p)) = .error .invalidURL := by
      intro p
      unfold fetchResult
      rw [get_with_retries_exn_first _ _ 3 2 (by omega) (hbad _ 1)]
    have hpc : ∀ p : Nat, pageCalls site p = 1 := by
      intro p
      unfold pageCalls
      rw [get_with_retries_exn_first _ _ 3 2 (by omega) (hbad _ 1)]
      rfl
    constructor
    · rw [mainItems_eq_spec site pages cs hcs]
      unfold specSuccessItems
      have hnil : ∀ p ∈ List.range' 1 pages,
          (match fetchResult (site.indexFetch (pageUrl p)) with
            | .error _ => ([] : List (String × Dict))
            | .ok body => (site.indexLinks body).filterMap
                (fun href => (parse_detail site href).toOption)) = [] := by
        intro p _
        rw [hfetch p]
      rw [List.flatMap_congr hnil]
      simp
    · unfold mainCalls
      rw [show (fun i => ((chunkAt pages cs i).map (pageCalls site)).sum) =
          (fun i => (chunkAt pages cs i).length) from ?_]
      · rw [sum_chunk_lengths pages cs hcs]
      · funext i
        rw [show (chunkAt pages cs i).map (pageCalls site) =
            (chunkAt pages cs i).map (fun _ => 1) from
          List.map_congr_left (fun p _ => hpc p)]
        simp [List.map_const]

theorem no_startup_validation_exit_zero_witness :
    0 < 5 ∧
      ((runScript siteBadUrl 1 5).1 = 0 ∧
        ((1 : Nat) = 0 → mainFile siteBadUrl 1 5 = [FIELDNAMES] ∧
          mainCalls siteBadUrl 1 5 = 0) ∧
        ((∀ url a, siteBadUrl.indexFetch url a = .exn .invalidURL) →
          mainItems siteBadUrl 1 5 = [] ∧ mainCalls siteBadUrl 1 5 = 1)) :=
  ⟨by decide, no_startup_validation_exit_zero siteBadUrl 1 5 (by decide)⟩

/-! ## Claim C9 -/

/-- Claim C9: for every configured page count, the scheduler partitions
the page numbers `1 .. pages` into consecutive chunks of at most the
chunk size (`CHUNK_SIZE = 5` by default), every page number belonging
to exactly one chunk and the chunks in ascending order; the chunks are
processed sequentially, and the crawl writes exactly the concatenation
over every chunk — it completes exactly when every chunk has been
processed, regardless of partial failures. -/
theorem chunk_partition_and_completion (site : Site) (pages cs : Nat)
    (hcs : 0 < cs) :
    CHUNK_SIZE = 5 ∧
    (chunksList pages cs).flatten = List.range' 1 pages ∧
    (∀ c ∈ chunksList pages cs, c ≠ [] ∧ c.length ≤ cs) ∧
    mainItems site pages cs =
      (chunksList pages cs).flatten.flatMap (perPageWritten site) := by
  have hflat : (chunksList pages cs).flatten =
      (pyRangeStep 0 pages cs).flatMap (chunkAt pages cs) := by
    unfold chunksList
    rw [List.flatMap_def]
  refine ⟨rfl, ?_, ?_, ?_⟩
  · rw [hflat]
    exact pyRangeStep_chunks_join pages cs hcs
  · intro c hc
    obtain ⟨i, hi, rfl⟩ := List.mem_map.mp hc
    unfold pyRangeStep at hi
    have hibound := pyRangeGo_mem_lt pages cs (pages - 0) 0 i hi
    constructor
    · unfold chunkAt
      intro hnil
      rw [List.range'_eq_nil] at hnil
      omega
    · unfold chunkAt
      rw [List.length_range']
      omega
  · rw [mainItems_flatten, hflat]

theorem chunk_partition_and_completion_witness :
    0 < 5 ∧
      (CHUNK_SIZE = 5 ∧
        (chunksList 12 5).flatten = List.range' 1 12 ∧
        (∀ c ∈ chunksList 12 5, c ≠ [] ∧ c.length ≤ 5) ∧
        mainItems siteBadUrl 12 5 =
          (chunksList 12 5).flatten.flatMap (perPageWritten siteBadUrl)) ∧
      chunksList 12 5 = [[1, 2, 3, 4, 5], [6, 7, 8, 9, 10], [11, 12]] :=
  ⟨by decide, chunk_partition_and_completion siteBadUrl 12 5 (by decide),
    by decide⟩

end Scraper
